import Mathlib

/-!
Shallow embedding of `src/poll_tg.js`: a poll–dedup–deliver loop that fetches
candidate transactions from a feed, enriches each new one through best-effort
HTTP lookups, delivers a formatted Telegram message with rate-limit retry and
photo→text fallback, and durably records processed identifiers.

External HTTP collaborators (axios, the WHATWG URL parser, `toLocaleString`)
are modelled by an oracle structure `Env`; every observable action of the
script (HTTP request, sleep, log line, file write) is recorded in a trace of
`Event`s.  Telegram responses are consumed one per send attempt from a list
`List TgResp`; an exhausted list means every further attempt succeeds.
-/

set_option linter.unusedVariables false

namespace PollTg

/-- `txn.tokenInfo` as read by the script: `symbol`/`address` may be absent
(JS `undefined`, defaulted with `|| ''`), `uri` is passed to `fetchMetadata`. -/
structure TokenInfo where
  symbol : Option String
  address : Option String
  uri : String
deriving DecidableEq, Repr

/-- One feed transaction: identifier, optional token info, optional numeric
`block_time` (the script checks `typeof txn.block_time === 'number'`). -/
structure Txn where
  id : String
  tokenInfo : Option TokenInfo
  block_time : Option Int
deriving DecidableEq, Repr

/-- The metadata JSON the gateways return; the script reads `meta.image` and
`meta.name`, both possibly absent. -/
structure Metadata where
  image : Option String := none
  name : Option String := none
deriving DecidableEq, Repr

/-- Raw JSON of the creator endpoint: `username`, `followersCount`,
`smartFollowersCount`, each possibly absent. -/
structure CreatorResp where
  username : Option String
  followersCount : Option Int
  smartFollowersCount : Option Int

/-- Normalised creator data as built by `fetchCreatorInfo`. -/
structure CreatorInfo where
  username : String
  followers : Int
  smartFollowers : Int
deriving DecidableEq, Repr

/-- Raw JSON of the ethos endpoint: an optional `scores` mapping from
lower-cased handle to numeric score. -/
structure EthosResp where
  scores : Option (String → Option Int)

/-- Outcome of one HTTP request against an auxiliary endpoint: either a
successful response carrying data, or a thrown error. -/
inductive HttpResult (α : Type)
  | ok (data : α)
  | err

/-- Body of a successful feed response: `r.data.transactions`, which may fail
the `Array.isArray` check (modelled by `none`). -/
structure FeedData where
  transactions : Option (List Txn)
deriving DecidableEq, Repr

/-- Outcome of the feed request: success with an optional body (`!r.data`
modelled by `none`), or a thrown error with optional `e.response?.status`. -/
inductive FeedResp
  | ok (data : Option FeedData)
  | err (status : Option Int)
deriving DecidableEq, Repr

/-- Outcome of one Telegram send attempt: success, or a thrown error with the
optional `e.response?.data?.error_code` and
`e.response?.data?.parameters?.retry_after` fields. -/
inductive TgResp
  | success
  | failure (error_code : Option Int) (retry_after : Option Nat)
deriving DecidableEq, Repr

/-- Observable actions of the script, in execution order. -/
inductive Event
  | fetchFeed
  | logFetchInvalid
  | logFetchServerErr
  | logFetchErr
  | getMeta (url : String)
  | logMetaFailed
  | getCreator (addr : String)
  | postEthos (username : String)
  | attemptPhoto (photo : String) (caption : String) (resp : TgResp)
  | attemptText (text : String) (resp : TgResp)
  | logRateLimitPhoto
  | logRateLimitText
  | logPhotoFallback
  | logSendError
  | sleepEv (ms : Nat)
  | writeProcessed (ids : List String)
  | writeTimestamp (t : Int)
deriving DecidableEq, Repr

/-- Oracle for every external collaborator: the feed response of the current
cycle, the URL parser's pathname extraction (`new URL(uri).pathname`, `none`
when the constructor throws), the response of each metadata / creator / ethos
request keyed by its argument, and the number formatter `toLocaleString`. -/
structure Env where
  feed : FeedResp
  urlPathname : String → Option String
  metaAt : String → HttpResult Metadata
  creatorAt : String → HttpResult CreatorResp
  ethosAt : String → HttpResult EthosResp
  fmtNum : Int → String

/-- JS `x || ''` on an optional string field (`undefined` and `''` both give
`''`). -/
def jsOr (o : Option String) : String := o.getD ""

/-- Per-character expansion used by `escapeHtml`. -/
def escapeChar (c : Char) : List Char :=
  if c = '&' then ['&', 'a', 'm', 'p', ';']
  else if c = '<' then ['&', 'l', 't', ';']
  else if c = '>' then ['&', 'g', 't', ';']
  else [c]

/-- `escapeHtml`: the script's three sequential global replaces of `&`, `<`,
`>`; since the later passes never rewrite characters introduced by the
earlier ones, this equals a single character-wise expansion. -/
def escapeHtml (s : String) : String :=
  String.mk ((s.data.map escapeChar).flatten)

/-- JS `s.startsWith(pre)`: code-point prefix test (modelled structurally so
that it evaluates; equivalent to the library function on these strings). -/
def jsStartsWith (s pre : String) : Bool :=
  pre.data.isPrefixOf s.data

/-- The rate-limit retry guard
`resp?.error_code === 429 && resp.parameters?.retry_after`: the error code
must be exactly 429 and `retry_after` must be present and truthy (a number
`0` is falsy in JS, so it does not trigger a retry). -/
def jsRetryCond (ec : Option Int) (ra : Option Nat) : Bool :=
  ec == some 429 &&
    (match ra with
     | some n => n != 0
     | none => false)

/-- The four hard-coded IPFS gateway base URLs, in order. -/
def gw1 : String := "https://cloudflare-ipfs.com"

/-- Second gateway. -/
def gw2 : String := "https://dweb.link"

/-- Third gateway. -/
def gw3 : String := "https://gateway.pinata.cloud"

/-- Fourth gateway. -/
def gw4 : String := "https://ipfs.io"

/-- `IPFS_GATEWAYS` from the script. -/
def IPFS_GATEWAYS : List String := [gw1, gw2, gw3, gw4]

/-- `sendMessage(html)`: post to the text endpoint; on a 429 error carrying a
truthy `retry_after`, log, sleep `(retry_after + 1) * 1000` ms and retry the
same call; on any other error, log `sendMessage error` and return (the
message is dropped).  Each attempt consumes one response from the list; an
empty list means the attempt succeeds.  Returns the event trace and the
unconsumed responses. -/
def sendMessage (html : String) : List TgResp → List Event × List TgResp
  | [] => ([.attemptText html .success], [])
  | .success :: rest => ([.attemptText html .success], rest)
  | .failure ec ra :: rest =>
    if jsRetryCond ec ra then
      let r := sendMessage html rest
      (.attemptText html (.failure ec ra) :: .logRateLimitText ::
        .sleepEv ((ra.getD 0 + 1) * 1000) :: r.1, r.2)
    else
      ([.attemptText html (.failure ec ra), .logSendError], rest)

/-- `sendWithImage(photoUrl, caption)`: with a falsy (empty) `photoUrl`,
delegate immediately to `sendMessage`; otherwise post to the photo endpoint,
retrying on a 429 with truthy `retry_after` exactly like `sendMessage`, and
falling back to `sendMessage caption` on any other error. -/
def sendWithImage (photoUrl caption : String) : List TgResp → List Event × List TgResp
  | [] =>
    if photoUrl = "" then sendMessage caption []
    else ([.attemptPhoto photoUrl caption .success], [])
  | .success :: rest =>
    if photoUrl = "" then sendMessage caption (.success :: rest)
    else ([.attemptPhoto photoUrl caption .success], rest)
  | .failure ec ra :: rest =>
    if photoUrl = "" then sendMessage caption (.failure ec ra :: rest)
    else if jsRetryCond ec ra then
      let r := sendWithImage photoUrl caption rest
      (.attemptPhoto photoUrl caption (.failure ec ra) :: .logRateLimitPhoto ::
        .sleepEv ((ra.getD 0 + 1) * 1000) :: r.1, r.2)
    else
      let r := sendMessage caption rest
      (.attemptPhoto photoUrl caption (.failure ec ra) :: .logPhotoFallback :: r.1, r.2)

/-- `fetchTxns()`: GET the feed; on a body without a `transactions` array,
log and return `[]`; on a thrown error with a 5xx status, log and sleep
1000 ms before returning `[]`; on any other thrown error, log and return
`[]` immediately.  Never throws to its caller. -/
def fetchTxns (env : Env) : List Txn × List Event :=
  match env.feed with
  | .ok none => ([], [.fetchFeed, .logFetchInvalid])
  | .ok (some d) =>
    match d.transactions with
    | none => ([], [.fetchFeed, .logFetchInvalid])
    | some l => (l, [.fetchFeed])
  | .err (some s) =>
    if 500 ≤ s then ([], [.fetchFeed, .logFetchServerErr, .sleepEv 1000])
    else ([], [.fetchFeed, .logFetchErr])
  | .err none => ([], [.fetchFeed, .logFetchErr])

/-- The gateway loop inside `fetchMetadata`: try `gw + ipfsPath` for each
gateway in order, returning the first successful body. -/
def tryGws (env : Env) (p : String) : List String → Option Metadata × List Event
  | [] => (none, [])
  | gw :: rest =>
    match env.metaAt (gw ++ p) with
    | .ok m => (some m, [.getMeta (gw ++ p)])
    | .err =>
      let r := tryGws env p rest
      (r.1, .getMeta (gw ++ p) :: r.2)

/-- `fetchMetadata(uri)`: extract `new URL(uri).pathname` (throwing — result
`none` with no request issued — when the URL is invalid), then try the four
gateways in order, then the raw `uri` as last resort; result `none` means the
function throws to its caller. -/
def fetchMetadata (env : Env) (uri : String) : Option Metadata × List Event :=
  match env.urlPathname uri with
  | none => (none, [])
  | some p =>
    let g := tryGws env p IPFS_GATEWAYS
    match g.1 with
    | some m => (some m, g.2)
    | none =>
      match env.metaAt uri with
      | .ok m => (some m, g.2 ++ [.getMeta uri])
      | .err => (none, g.2 ++ [.getMeta uri])

/-- `fetchCreatorInfo(addr)`: GET the creator endpoint; on success normalise
with `|| ''` and `?? 0`; on any thrown error return the all-default record. -/
def fetchCreatorInfo (env : Env) (addr : String) : CreatorInfo × List Event :=
  match env.creatorAt addr with
  | .ok d =>
    ({ username := jsOr d.username
       followers := d.followersCount.getD 0
       smartFollowers := d.smartFollowersCount.getD 0 }, [.getCreator addr])
  | .err => ({ username := "", followers := 0, smartFollowers := 0 }, [.getCreator addr])

/-- `fetchEthos(u)`: POST the handle; read
`r.data.scores?.[u.toLowerCase()] ?? 0`; any thrown error yields 0. -/
def fetchEthos (env : Env) (u : String) : Int × List Event :=
  match env.ethosAt u with
  | .ok d =>
    match d.scores with
    | some f => ((f u.toLower).getD 0, [.postEthos u])
    | none => (0, [.postEthos u])
  | .err => (0, [.postEthos u])

/-- Contents of `processed.json`: absent, unreadable JSON, or a list of ids. -/
inductive FileState
  | absent
  | corrupt
  | good (ids : List String)
deriving DecidableEq, Repr

/-- Mutable state of the script: the in-memory `processed` set (a JS `Set`,
kept as its insertion-ordered element list) and the durable file. -/
structure St where
  processed : List String
  file : FileState
deriving DecidableEq, Repr

/-- `Set.prototype.add` on the insertion-ordered element list. -/
def setAdd (l : List String) (a : String) : List String :=
  if a ∈ l then l else l ++ [a]

/-- `markProcessed(txn)`: add `txn.id` to the set, synchronously rewrite
`processed.json` with the full set, and, when `block_time` is a number, also
rewrite the timestamp file. -/
def markProcessed (st : St) (txn : Txn) : St × List Event :=
  let p := setAdd st.processed txn.id
  ({ processed := p, file := .good p },
   .writeProcessed p ::
     (match txn.block_time with
      | some t => [.writeTimestamp t]
      | none => []))

/-- Startup load (lines 28–34): rebuild the in-memory set from
`processed.json`, adding each stored id in order; a missing or unparsable
file yields the empty set. -/
def loadProcessed : FileState → List String
  | .absent => []
  | .corrupt => []
  | .good l => l.foldl setAdd []

/-- The state a freshly restarted process starts from, given the durable
file left behind. -/
def startState (fs : FileState) : St :=
  { processed := loadProcessed fs, file := fs }

/-- `processed.has(id)`. -/
def hasSeen (st : St) (id : String) : Bool :=
  decide (id ∈ st.processed)

/-- The HTML caption built by `processTxn` (lines 199–207). -/
def buildCaption (env : Env) (symbol : String) (meta : Metadata)
    (ci : CreatorInfo) (score : Int) (address : String) : String :=
  "<b>Ticker:</b> $" ++ escapeHtml symbol ++ "\n" ++
  "<b>Token Name:</b> " ++ escapeHtml (jsOr meta.name) ++ "\n" ++
  "<b>Creator:</b> <a href=\"https://x.com/" ++ escapeHtml ci.username ++ "\">" ++
    escapeHtml ci.username ++ "</a>\n" ++
  "<b>Followers:</b> " ++ env.fmtNum ci.followers ++ "\n" ++
  "<b>Smart Followers:</b> " ++ env.fmtNum ci.smartFollowers ++ "\n" ++
  "<b>Ethos:</b> " ++ env.fmtNum score ++ "\n" ++
  "<b>CA:</b> <code>" ++ escapeHtml address ++ "</code>"

/-- `processTxn(txn)`: return immediately when the id is in the processed
set; mark and return when `tokenInfo` is absent; otherwise resolve metadata
(catching its failure and logging), extract the image only when it starts
with `"http"`, look up creator info, look up the ethos score only for a
truthy (non-empty) handle, build the caption, deliver, and finally mark the
transaction processed. -/
def processTxn (env : Env) (st : St) (resps : List TgResp) (txn : Txn) :
    St × List TgResp × List Event :=
  if txn.id ∈ st.processed then (st, resps, [])
  else
    match txn.tokenInfo with
    | none =>
      let m := markProcessed st txn
      (m.1, resps, m.2)
    | some ti =>
      let symbol := jsOr ti.symbol
      let address := jsOr ti.address
      let fm := fetchMetadata env ti.uri
      let meta := fm.1.getD {}
      let metaLog : List Event :=
        match fm.1 with
        | some _ => []
        | none => [.logMetaFailed]
      let rawImage := jsOr meta.image
      let imageUrl := if jsStartsWith rawImage "http" then rawImage else ""
      let fc := fetchCreatorInfo env address
      let ci := fc.1
      let fe := if ci.username = "" then ((0 : Int), ([] : List Event))
                else fetchEthos env ci.username
      let caption := buildCaption env symbol meta ci fe.1 address
      let send := sendWithImage imageUrl caption resps
      let m := markProcessed st txn
      (m.1, send.2, fm.2 ++ metaLog ++ fc.2 ++ fe.2 ++ send.1 ++ m.2)

/-- The `for (const txn of ...) await processTxn(txn)` loop: sequential
processing threading the state and the Telegram response stream. -/
def processList (env : Env) : St → List TgResp → List Txn → St × List TgResp × List Event
  | st, resps, [] => (st, resps, [])
  | st, resps, t :: ts =>
    let r1 := processTxn env st resps t
    let r2 := processList env r1.1 r1.2.1 ts
    (r2.1, r2.2.1, r1.2.2 ++ r2.2.2)

/-- `txns.slice().reverse()`: `slice()` copies the array and `reverse()`
mutates only that copy.  First component: the value the loop iterates over;
second component: the contents of `txns` after the operation (unchanged). -/
def jsSliceReverse (l : List Txn) : List Txn × List Txn :=
  (l.reverse, l)

/-- `poll()`: fetch the feed, then process the reversed copy sequentially. -/
def poll (env : Env) (st : St) (resps : List TgResp) : St × List TgResp × List Event :=
  let f := fetchTxns env
  let r := processList env st resps (jsSliceReverse f.1).1
  (r.1, r.2.1, f.2 ++ r.2.2)

/-- The enriched values `processTxn` would compute for a given token info:
the resolved metadata object (empty on failure). -/
def metaOf (env : Env) (ti : TokenInfo) : Metadata :=
  (fetchMetadata env ti.uri).1.getD {}

/-- The image URL `processTxn` passes to `sendWithImage`. -/
def imageOf (env : Env) (ti : TokenInfo) : String :=
  if jsStartsWith (jsOr (metaOf env ti).image) "http"
  then jsOr (metaOf env ti).image else ""

/-- The creator info `processTxn` obtains for a given token info. -/
def creatorOf (env : Env) (ti : TokenInfo) : CreatorInfo :=
  (fetchCreatorInfo env (jsOr ti.address)).1

/-- The ethos score `processTxn` obtains (short-circuited on empty handle). -/
def scoreOf (env : Env) (ti : TokenInfo) : Int :=
  if (creatorOf env ti).username = "" then 0
  else (fetchEthos env (creatorOf env ti).username).1

/-- The caption `processTxn` delivers for a given token info. -/
def enrichedCaption (env : Env) (ti : TokenInfo) : String :=
  buildCaption env (jsOr ti.symbol) (metaOf env ti) (creatorOf env ti)
    (scoreOf env ti) (jsOr ti.address)

/-- Caption carried by a delivery attempt event. -/
def captionOfEvent : Event → Option String
  | .attemptPhoto _ c _ => some c
  | .attemptText c _ => some c
  | _ => none

/-- Captions of the delivery attempts in a trace, in order. -/
def deliveryCaptions (evs : List Event) : List String :=
  evs.filterMap captionOfEvent

/-- Whether an event is a delivery attempt (photo or text post). -/
def isDeliveryAttempt : Event → Bool
  | .attemptPhoto _ _ _ => true
  | .attemptText _ _ => true
  | _ => false

/-- The delivery attempts in a trace. -/
def deliveryAttempts (evs : List Event) : List Event :=
  evs.filter isDeliveryAttempt

/-- Photo URL carried by a photo attempt event. -/
def photoUrlOfEvent : Event → Option String
  | .attemptPhoto u _ _ => some u
  | _ => none

/-- URLs of the photo-endpoint attempts in a trace, in order. -/
def photoAttemptUrls (evs : List Event) : List String :=
  evs.filterMap photoUrlOfEvent

/-- Text carried by a text attempt event. -/
def textOfEvent : Event → Option String
  | .attemptText c _ => some c
  | _ => none

/-- Texts of the text-endpoint attempts in a trace, in order. -/
def textAttempts (evs : List Event) : List String :=
  evs.filterMap textOfEvent

/-- Whether an event is a successful delivery attempt. -/
def isSuccessAttempt : Event → Bool
  | .attemptPhoto _ _ .success => true
  | .attemptText _ .success => true
  | _ => false

/-- Number of successful deliveries in a trace. -/
def successCount (evs : List Event) : Nat :=
  (evs.filter isSuccessAttempt).length

/-- Whether an event is a successful text delivery. -/
def isSuccessTextAttempt : Event → Bool
  | .attemptText _ .success => true
  | _ => false

/-- Number of successful text-only deliveries in a trace. -/
def successTextCount (evs : List Event) : Nat :=
  (evs.filter isSuccessTextAttempt).length

/-- Whether an event reports a delivery failure (`sendMessage error` /
`sendPhoto failed`); the rate-limit warnings are not failure reports. -/
def isFailureLog : Event → Bool
  | .logSendError => true
  | .logPhotoFallback => true
  | _ => false

/-- The delivery-failure log lines in a trace. -/
def failureLogs (evs : List Event) : List Event :=
  evs.filter isFailureLog

/-- Whether an event writes the durable state files. -/
def isStoreWrite : Event → Bool
  | .writeProcessed _ => true
  | .writeTimestamp _ => true
  | _ => false

/-- The durable-store writes in a trace. -/
def storeWrites (evs : List Event) : List Event :=
  evs.filter isStoreWrite

/-- Handle carried by an ethos lookup event. -/
def ethosCallOfEvent : Event → Option String
  | .postEthos u => some u
  | _ => none

/-- The ethos lookups in a trace, in order. -/
def ethosCalls (evs : List Event) : List String :=
  evs.filterMap ethosCallOfEvent

/-- Whether an event is a sleep. -/
def isSleep : Event → Bool
  | .sleepEv _ => true
  | _ => false

/-- The sleeps in a trace. -/
def sleeps (evs : List Event) : List Event :=
  evs.filter isSleep

/-- Modelled from the spec: an "absolute, directly-fetchable URL" image
reference — a scheme-qualified `http://` or `https://` URL.  Used only to
state what the spec's acceptance criterion demands, for comparison with the
code's prefix test. -/
def specDirectlyFetchableUrl (s : String) : Bool :=
  jsStartsWith s "http://" || jsStartsWith s "https://"

/-- A neutral oracle for concrete instantiations: empty feed body, every
auxiliary lookup fails, numbers formatted by `toString`. -/
def baseEnv : Env :=
  { feed := .ok none
    urlPathname := fun _ => some "/p"
    metaAt := fun _ => .err
    creatorAt := fun _ => .err
    ethosAt := fun _ => .err
    fmtNum := fun n => toString n }

/-- Empty starting state: no processed ids, no file. -/
def st0 : St := { processed := [], file := .absent }

/-- A state that has already processed the identifier `"idA"`. -/
def stA : St := { processed := ["idA"], file := .good ["idA"] }

/-- Concrete transaction A (oldest in the C3 scenario). -/
def tA : Txn := { id := "idA", tokenInfo := some { symbol := some "AAA", address := some "addrA", uri := "uriA" }, block_time := some 1 }

/-- Concrete transaction B. -/
def tB : Txn := { id := "idB", tokenInfo := some { symbol := some "BBB", address := some "addrB", uri := "uriB" }, block_time := some 2 }

/-- Concrete transaction C (newest in the C3 scenario). -/
def tC : Txn := { id := "idC", tokenInfo := some { symbol := some "CCC", address := some "addrC", uri := "uriC" }, block_time := some 3 }

/-- A concrete transaction carrying token info, for instantiations. -/
def cTxn2 : Txn := { id := "id2", tokenInfo := some { symbol := some "S2", address := some "a2", uri := "u2" }, block_time := none }

/-- Oracle whose feed returns `[C, B, A]` (newest first). -/
def cEnv3 : Env := { baseEnv with feed := .ok (some { transactions := some [tC, tB, tA] }) }

/-- Oracle whose metadata lookups resolve to an image reference `"httpfoo"`
that starts with `http` but is not an absolute fetchable URL. -/
def cEnv9 : Env := { baseEnv with metaAt := fun _ => .ok { image := some "httpfoo", name := some "N" } }

/-- Oracle whose feed request throws with HTTP status 502. -/
def cEnv502 : Env := { baseEnv with feed := .err (some 502) }

/-! ### Helper lemmas about the processed set -/

theorem mem_setAdd {l : List String} {a b : String} :
    a ∈ setAdd l b ↔ a ∈ l ∨ a = b := by
  unfold setAdd
  split
  · next hb =>
    constructor
    · exact fun h => Or.inl h
    · rintro (h | rfl)
      · exact h
      · exact hb
  · simp

theorem mem_setAdd_self {l : List String} {a : String} : a ∈ setAdd l a :=
  mem_setAdd.mpr (Or.inr rfl)

theorem mem_setAdd_of_mem {l : List String} {a b : String} (h : a ∈ l) :
    a ∈ setAdd l b :=
  mem_setAdd.mpr (Or.inl h)

theorem mem_foldl_setAdd_of_mem_init {l : List String} {init : List String}
    {a : String} (h : a ∈ init) : a ∈ List.foldl setAdd init l := by
  induction l generalizing init with
  | nil => exact h
  | cons b bs ih => exact ih (mem_setAdd_of_mem h)

theorem mem_foldl_setAdd_of_mem {l : List String} {init : List String}
    {a : String} (h : a ∈ l) : a ∈ List.foldl setAdd init l := by
  induction l generalizing init with
  | nil => cases h
  | cons b bs ih =>
    simp only [List.foldl_cons]
    rcases List.mem_cons.mp h with rfl | hm
    · exact mem_foldl_setAdd_of_mem_init mem_setAdd_self
    · exact ih hm

/-! ### Basic lemmas about `processTxn` and `processList` -/

theorem processTxn_skip {env : Env} {st : St} {resps : List TgResp} {t : Txn}
    (h : t.id ∈ st.processed) : processTxn env st resps t = (st, resps, []) := by
  simp [processTxn, h]

theorem processTxn_fst (env : Env) (st : St) (resps : List TgResp) (t : Txn) :
    (processTxn env st resps t).1 =
      if t.id ∈ st.processed then st else (markProcessed st t).1 := by
  unfold processTxn
  split
  · rfl
  · cases t.tokenInfo <;> rfl

theorem processTxn_mem_processed (env : Env) (st : St) (resps : List TgResp)
    (t : Txn) : t.id ∈ (processTxn env st resps t).1.processed := by
  rw [processTxn_fst]
  split
  · assumption
  · exact mem_setAdd_self

theorem processTxn_processed_mono {env : Env} {st : St} {resps : List TgResp}
    {t : Txn} {x : String} (h : x ∈ st.processed) :
    x ∈ (processTxn env st resps t).1.processed := by
  rw [processTxn_fst]
  split
  · exact h
  · exact mem_setAdd_of_mem h

theorem processList_processed_mono {env : Env} {l : List Txn} {st : St}
    {resps : List TgResp} {x : String} (h : x ∈ st.processed) :
    x ∈ (processList env st resps l).1.processed := by
  induction l generalizing st resps with
  | nil => exact h
  | cons t ts ih => exact ih (processTxn_processed_mono h)

theorem processList_mem_processed {env : Env} {l : List Txn} {st : St}
    {resps : List TgResp} {t : Txn} (h : t ∈ l) :
    t.id ∈ (processList env st resps l).1.processed := by
  induction l generalizing st resps with
  | nil => cases h
  | cons u us ih =>
    simp only [processList]
    rcases List.mem_cons.mp h with rfl | hm
    · exact processList_processed_mono (processTxn_mem_processed env st resps t)
    · exact ih hm

theorem processList_all_seen {env : Env} {l : List Txn} {st : St}
    {resps : List TgResp} (h : ∀ t ∈ l, t.id ∈ st.processed) :
    processList env st resps l = (st, resps, []) := by
  induction l with
  | nil => rfl
  | cons t ts ih =>
    have ht : t.id ∈ st.processed := h t (List.mem_cons_self t ts)
    simp only [processList, processTxn_skip ht]
    rw [ih fun u hu => h u (List.mem_cons_of_mem t hu)]
    simp

/-! ### Basic lemmas about `fetchTxns` -/

theorem fetchTxns_congr {env env' : Env} (h : env.feed = env'.feed) :
    fetchTxns env = fetchTxns env' := by
  unfold fetchTxns
  rw [h]

theorem deliveryAttempts_fetchTxns (env : Env) :
    deliveryAttempts (fetchTxns env).2 = [] := by
  rcases h : env.feed with (_ | ⟨_ | l⟩) | (_ | s) <;>
    simp only [fetchTxns, h] <;>
    first
      | rfl
      | (split <;> rfl)

/-! ### Lemmas about the Telegram senders -/

theorem sendWithImage_empty (c : String) (rs : List TgResp) :
    sendWithImage "" c rs = sendMessage c rs := by
  cases rs with
  | nil => simp [sendWithImage]
  | cons r rest => cases r <;> simp [sendWithImage]

theorem sendWithImage_nil (p c : String) :
    sendWithImage p c [] =
      (if p = "" then [Event.attemptText c .success]
       else [Event.attemptPhoto p c .success], []) := by
  by_cases h : p = "" <;> simp [sendWithImage, sendMessage, h]

theorem sendMessage_events (html : String) (rs : List TgResp) :
    ∀ e ∈ (sendMessage html rs).1,
      (∃ r, e = Event.attemptText html r) ∨ e = .logRateLimitText ∨
        e = .logSendError ∨ ∃ ms, e = .sleepEv ms := by
  induction rs with
  | nil =>
    intro e he
    simp [sendMessage] at he
    exact Or.inl ⟨.success, he⟩
  | cons r rest ih =>
    cases r with
    | success =>
      intro e he
      simp [sendMessage] at he
      exact Or.inl ⟨.success, he⟩
    | failure ec ra =>
      by_cases hc : jsRetryCond ec ra
      · intro e he
        simp only [sendMessage, hc, if_true, List.mem_cons] at he
        rcases he with rfl | rfl | rfl | he
        · exact Or.inl ⟨_, rfl⟩
        · exact Or.inr (Or.inl rfl)
        · exact Or.inr (Or.inr (Or.inr ⟨_, rfl⟩))
        · exact ih e he
      · intro e he
        simp [sendMessage, hc] at he
        rcases he with rfl | rfl
        · exact Or.inl ⟨_, rfl⟩
        · exact Or.inr (Or.inr (Or.inl rfl))

theorem sendWithImage_events (p c : String) (rs : List TgResp) :
    ∀ e ∈ (sendWithImage p c rs).1,
      (∃ r, e = Event.attemptPhoto p c r) ∨ (∃ r, e = Event.attemptText c r) ∨
        e = .logRateLimitPhoto ∨ e = .logRateLimitText ∨ e = .logPhotoFallback ∨
        e = .logSendError ∨ ∃ ms, e = .sleepEv ms := by
  induction rs with
  | nil =>
    intro e he
    rw [sendWithImage_nil] at he
    split at he <;> simp at he <;> subst he
    · exact Or.inr (Or.inl ⟨_, rfl⟩)
    · exact Or.inl ⟨_, rfl⟩
  | cons r rest ih =>
    cases r with
    | success =>
      by_cases hp : p = ""
      · intro e he
        rw [hp, sendWithImage_empty] at he
        rcases sendMessage_events c _ e he with ⟨r, rfl⟩ | rfl | rfl | ⟨ms, rfl⟩
        · exact Or.inr (Or.inl ⟨_, rfl⟩)
        · exact Or.inr (Or.inr (Or.inr (Or.inl rfl)))
        · exact Or.inr (Or.inr (Or.inr (Or.inr (Or.inr (Or.inl rfl)))))
        · exact Or.inr (Or.inr (Or.inr (Or.inr (Or.inr (Or.inr ⟨_, rfl⟩)))))
      · intro e he
        simp [sendWithImage, hp] at he
        subst he
        exact Or.inl ⟨_, rfl⟩
    | failure ec ra =>
      by_cases hp : p = ""
      · intro e he
        rw [hp, sendWithImage_empty] at he
        rcases sendMessage_events c _ e he with ⟨r, rfl⟩ | rfl | rfl | ⟨ms, rfl⟩
        · exact Or.inr (Or.inl ⟨_, rfl⟩)
        · exact Or.inr (Or.inr (Or.inr (Or.inl rfl)))
        · exact Or.inr (Or.inr (Or.inr (Or.inr (Or.inr (Or.inl rfl)))))
        · exact Or.inr (Or.inr (Or.inr (Or.inr (Or.inr (Or.inr ⟨_, rfl⟩)))))
      · by_cases hc : jsRetryCond ec ra
        · intro e he
          simp [sendWithImage, hp, hc] at he
          rcases he with rfl | rfl | rfl | he
          · exact Or.inl ⟨_, rfl⟩
          · exact Or.inr (Or.inr (Or.inl rfl))
          · exact Or.inr (Or.inr (Or.inr (Or.inr (Or.inr (Or.inr ⟨_, rfl⟩)))))
          · exact ih e he
        · intro e he
          simp [sendWithImage, hp, hc] at he
          rcases he with rfl | rfl | he
          · exact Or.inl ⟨_, rfl⟩
          · exact Or.inr (Or.inr (Or.inr (Or.inr (Or.inl rfl))))
          · rcases sendMessage_events c _ e he with ⟨r, rfl⟩ | rfl | rfl | ⟨ms, rfl⟩
            · exact Or.inr (Or.inl ⟨_, rfl⟩)
            · exact Or.inr (Or.inr (Or.inr (Or.inl rfl)))
            · exact Or.inr (Or.inr (Or.inr (Or.inr (Or.inr (Or.inl rfl)))))
            · exact Or.inr (Or.inr (Or.inr (Or.inr (Or.inr (Or.inr ⟨_, rfl⟩)))))

theorem photoAttemptUrls_sendMessage (html : String) (rs : List TgResp) :
    photoAttemptUrls (sendMessage html rs).1 = [] := by
  refine List.filterMap_eq_nil_iff.mpr fun e he => ?_
  rcases sendMessage_events html rs e he with ⟨r, rfl⟩ | rfl | rfl | ⟨ms, rfl⟩ <;> rfl

theorem ethosCalls_sendMessage (html : String) (rs : List TgResp) :
    ethosCalls (sendMessage html rs).1 = [] := by
  refine List.filterMap_eq_nil_iff.mpr fun e he => ?_
  rcases sendMessage_events html rs e he with ⟨r, rfl⟩ | rfl | rfl | ⟨ms, rfl⟩ <;> rfl

theorem ethosCalls_sendWithImage (p c : String) (rs : List TgResp) :
    ethosCalls (sendWithImage p c rs).1 = [] := by
  refine List.filterMap_eq_nil_iff.mpr fun e he => ?_
  rcases sendWithImage_events p c rs e he with
    ⟨r, rfl⟩ | ⟨r, rfl⟩ | rfl | rfl | rfl | rfl | ⟨ms, rfl⟩ <;> rfl

theorem storeWrites_sendMessage (html : String) (rs : List TgResp) :
    storeWrites (sendMessage html rs).1 = [] := by
  refine List.filter_eq_nil_iff.mpr fun e he => ?_
  rcases sendMessage_events html rs e he with ⟨r, rfl⟩ | rfl | rfl | ⟨ms, rfl⟩ <;> simp [isStoreWrite]

theorem storeWrites_sendWithImage (p c : String) (rs : List TgResp) :
    storeWrites (sendWithImage p c rs).1 = [] := by
  refine List.filter_eq_nil_iff.mpr fun e he => ?_
  rcases sendWithImage_events p c rs e he with
    ⟨r, rfl⟩ | ⟨r, rfl⟩ | rfl | rfl | rfl | rfl | ⟨ms, rfl⟩ <;> simp [isStoreWrite]

theorem textAttempts_sendMessage (html : String) (rs : List TgResp) :
    ∃ n, textAttempts (sendMessage html rs).1 = List.replicate (n + 1) html := by
  induction rs with
  | nil => exact ⟨0, rfl⟩
  | cons r rest ih =>
    cases r with
    | success => exact ⟨0, rfl⟩
    | failure ec ra =>
      by_cases hc : jsRetryCond ec ra
      · obtain ⟨n, hn⟩ := ih
        refine ⟨n + 1, ?_⟩
        simp only [sendMessage, hc, if_true, textAttempts, List.filterMap_cons, textOfEvent]
        rw [show textAttempts (sendMessage html rest).1 =
              List.filterMap textOfEvent (sendMessage html rest).1 from rfl] at hn
        rw [hn]
        simp [List.replicate_succ]
      · exact ⟨0, by simp [sendMessage, hc, textAttempts, List.filterMap_cons, textOfEvent, List.replicate]⟩

theorem successTextCount_sendMessage_le_one (html : String) (rs : List TgResp) :
    successTextCount (sendMessage html rs).1 ≤ 1 := by
  induction rs with
  | nil => simp [sendMessage, successTextCount, isSuccessTextAttempt]
  | cons r rest ih =>
    cases r with
    | success => simp [sendMessage, successTextCount, isSuccessTextAttempt]
    | failure ec ra =>
      by_cases hc : jsRetryCond ec ra
      · simpa [sendMessage, hc, successTextCount, isSuccessTextAttempt] using ih
      · simp [sendMessage, hc, successTextCount, isSuccessTextAttempt]

theorem deliveryAttempts_sendMessage_ne_nil (html : String) (rs : List TgResp) :
    deliveryAttempts (sendMessage html rs).1 ≠ [] := by
  induction rs with
  | nil => simp [sendMessage, deliveryAttempts, isDeliveryAttempt]
  | cons r rest ih =>
    cases r with
    | success => simp [sendMessage, deliveryAttempts, isDeliveryAttempt]
    | failure ec ra =>
      by_cases hc : jsRetryCond ec ra <;>
        simp [sendMessage, hc, deliveryAttempts, isDeliveryAttempt]

theorem deliveryAttempts_sendWithImage_ne_nil (p c : String) (rs : List TgResp) :
    deliveryAttempts (sendWithImage p c rs).1 ≠ [] := by
  induction rs with
  | nil =>
    rw [sendWithImage_nil]
    split <;> simp [deliveryAttempts, isDeliveryAttempt]
  | cons r rest ih =>
    by_cases hp : p = ""
    · rw [hp, sendWithImage_empty]
      exact deliveryAttempts_sendMessage_ne_nil c _
    · cases r with
      | success => simp [sendWithImage, hp, deliveryAttempts, isDeliveryAttempt]
      | failure ec ra =>
        by_cases hc : jsRetryCond ec ra <;>
          simp [sendWithImage, hp, hc, deliveryAttempts, isDeliveryAttempt]

theorem photoAttemptUrls_sendWithImage (p c : String) (rs : List TgResp)
    (hp : p ≠ "") :
    ∃ n, photoAttemptUrls (sendWithImage p c rs).1 = List.replicate (n + 1) p := by
  induction rs with
  | nil =>
    refine ⟨0, ?_⟩
    rw [sendWithImage_nil, if_neg hp]
    rfl
  | cons r rest ih =>
    cases r with
    | success =>
      exact ⟨0, by simp [sendWithImage, hp, photoAttemptUrls, List.filterMap_cons, photoUrlOfEvent, List.replicate]⟩
    | failure ec ra =>
      by_cases hc : jsRetryCond ec ra
      · obtain ⟨n, hn⟩ := ih
        refine ⟨n + 1, ?_⟩
        simp only [sendWithImage, hp, hc, if_false, if_true, photoAttemptUrls,
          List.filterMap_cons, photoUrlOfEvent]
        rw [show photoAttemptUrls (sendWithImage p c rest).1 =
              List.filterMap photoUrlOfEvent (sendWithImage p c rest).1 from rfl] at hn
        rw [hn]
        simp [List.replicate_succ]
      · refine ⟨0, ?_⟩
        have hsm := photoAttemptUrls_sendMessage c rest
        rw [show photoAttemptUrls (sendMessage c rest).1 =
              List.filterMap photoUrlOfEvent (sendMessage c rest).1 from rfl] at hsm
        simp [sendWithImage, hp, hc, photoAttemptUrls, List.filterMap_cons,
          photoUrlOfEvent, hsm, List.replicate]

/-! ### Lemmas about the enrichment lookups -/

theorem tryGws_events (env : Env) (p : String) (gws : List String) :
    ∀ e ∈ (tryGws env p gws).2, ∃ u, e = Event.getMeta u := by
  induction gws with
  | nil => intro e he; cases he
  | cons gw rest ih =>
    intro e he
    cases hm : env.metaAt (gw ++ p) with
    | ok m =>
      simp [tryGws, hm] at he
      exact ⟨_, he⟩
    | err =>
      simp [tryGws, hm] at he
      rcases he with rfl | he
      · exact ⟨_, rfl⟩
      · exact ih e he

theorem fetchMetadata_events (env : Env) (uri : String) :
    ∀ e ∈ (fetchMetadata env uri).2, ∃ u, e = Event.getMeta u := by
  intro e he
  cases hp : env.urlPathname uri with
  | none => simp [fetchMetadata, hp] at he
  | some p =>
    simp only [fetchMetadata, hp] at he
    rcases hg : (tryGws env p IPFS_GATEWAYS).1 with _ | m
    · rw [hg] at he
      cases hm : env.metaAt uri <;> rw [hm] at he <;> simp at he <;>
        rcases he with he | rfl
      · exact tryGws_events env p IPFS_GATEWAYS e he
      · exact ⟨_, rfl⟩
      · exact tryGws_events env p IPFS_GATEWAYS e he
      · exact ⟨_, rfl⟩
    · rw [hg] at he
      exact tryGws_events env p IPFS_GATEWAYS e he

theorem fetchCreatorInfo_events (env : Env) (a : String) :
    (fetchCreatorInfo env a).2 = [.getCreator a] := by
  cases h : env.creatorAt a <;> simp [fetchCreatorInfo, h]

theorem fetchEthos_events (env : Env) (u : String) :
    (fetchEthos env u).2 = [.postEthos u] := by
  cases h : env.ethosAt u with
  | ok d => cases hs : d.scores <;> simp [fetchEthos, h, hs]
  | err => simp [fetchEthos, h]

/-! ### Lemmas about `markProcessed` -/

theorem markProcessed_fst (st : St) (t : Txn) :
    (markProcessed st t).1 =
      { processed := setAdd st.processed t.id
        file := .good (setAdd st.processed t.id) } := rfl

theorem markProcessed_events (st : St) (t : Txn) :
    ∀ e ∈ (markProcessed st t).2, isStoreWrite e = true := by
  intro e he
  cases hb : t.block_time <;> simp [markProcessed, hb] at he
  · subst he; rfl
  · rcases he with rfl | rfl <;> rfl

theorem markProcessed_head (st : St) (t : Txn) :
    (markProcessed st t).2.head? =
      some (.writeProcessed (setAdd st.processed t.id)) := by
  cases hb : t.block_time <;> simp [markProcessed, hb]

/-! ### Shape of `processTxn` -/

theorem processTxn_none {env : Env} {st : St} {resps : List TgResp} {t : Txn}
    (h1 : t.id ∉ st.processed) (h2 : t.tokenInfo = none) :
    processTxn env st resps t =
      ((markProcessed st t).1, resps, (markProcessed st t).2) := by
  simp [processTxn, h1, h2]

theorem processTxn_some {env : Env} {st : St} {resps : List TgResp} {t : Txn}
    {ti : TokenInfo} (h1 : t.id ∉ st.processed) (h2 : t.tokenInfo = some ti) :
    processTxn env st resps t =
      ((markProcessed st t).1,
       (sendWithImage (imageOf env ti) (enrichedCaption env ti) resps).2,
       (fetchMetadata env ti.uri).2
         ++ (match (fetchMetadata env ti.uri).1 with
             | some _ => []
             | none => [Event.logMetaFailed])
         ++ [Event.getCreator (jsOr ti.address)]
         ++ (if (creatorOf env ti).username = "" then []
             else [Event.postEthos (creatorOf env ti).username])
         ++ (sendWithImage (imageOf env ti) (enrichedCaption env ti) resps).1
         ++ (markProcessed st t).2) := by
  simp only [processTxn, h2, if_neg h1]
  by_cases hu : (creatorOf env ti).username = ""
  · simp [fetchCreatorInfo_events, fetchEthos_events, creatorOf, imageOf, metaOf,
      enrichedCaption, scoreOf, hu, apply_ite]
  · simp [fetchCreatorInfo_events, fetchEthos_events, creatorOf, imageOf, metaOf,
      enrichedCaption, scoreOf, hu, apply_ite]

/-! ### Trace projections distribute over concatenation -/

theorem deliveryCaptions_append (l m : List Event) :
    deliveryCaptions (l ++ m) = deliveryCaptions l ++ deliveryCaptions m := by
  simp [deliveryCaptions, List.filterMap_append]

theorem photoAttemptUrls_append (l m : List Event) :
    photoAttemptUrls (l ++ m) = photoAttemptUrls l ++ photoAttemptUrls m := by
  simp [photoAttemptUrls, List.filterMap_append]

theorem ethosCalls_append (l m : List Event) :
    ethosCalls (l ++ m) = ethosCalls l ++ ethosCalls m := by
  simp [ethosCalls, List.filterMap_append]

theorem storeWrites_append (l m : List Event) :
    storeWrites (l ++ m) = storeWrites l ++ storeWrites m := by
  simp [storeWrites, List.filter_append]

theorem deliveryAttempts_append (l m : List Event) :
    deliveryAttempts (l ++ m) = deliveryAttempts l ++ deliveryAttempts m := by
  simp [deliveryAttempts, List.filter_append]

/-! ### Projections of the enrichment and persistence traces -/

theorem storeWrites_fetchMetadata (env : Env) (uri : String) :
    storeWrites (fetchMetadata env uri).2 = [] := by
  refine List.filter_eq_nil_iff.mpr fun e he => ?_
  obtain ⟨u, rfl⟩ := fetchMetadata_events env uri e he
  simp [isStoreWrite]

theorem photoAttemptUrls_fetchMetadata (env : Env) (uri : String) :
    photoAttemptUrls (fetchMetadata env uri).2 = [] := by
  refine List.filterMap_eq_nil_iff.mpr fun e he => ?_
  obtain ⟨u, rfl⟩ := fetchMetadata_events env uri e he
  rfl

theorem ethosCalls_fetchMetadata (env : Env) (uri : String) :
    ethosCalls (fetchMetadata env uri).2 = [] := by
  refine List.filterMap_eq_nil_iff.mpr fun e he => ?_
  obtain ⟨u, rfl⟩ := fetchMetadata_events env uri e he
  rfl

theorem deliveryCaptions_fetchMetadata (env : Env) (uri : String) :
    deliveryCaptions (fetchMetadata env uri).2 = [] := by
  refine List.filterMap_eq_nil_iff.mpr fun e he => ?_
  obtain ⟨u, rfl⟩ := fetchMetadata_events env uri e he
  rfl

theorem deliveryAttempts_fetchMetadata (env : Env) (uri : String) :
    deliveryAttempts (fetchMetadata env uri).2 = [] := by
  refine List.filter_eq_nil_iff.mpr fun e he => ?_
  obtain ⟨u, rfl⟩ := fetchMetadata_events env uri e he
  simp [isDeliveryAttempt]

theorem deliveryCaptions_markProcessed (st : St) (t : Txn) :
    deliveryCaptions (markProcessed st t).2 = [] := by
  cases hb : t.block_time <;>
    simp [markProcessed, hb, deliveryCaptions, captionOfEvent]

theorem photoAttemptUrls_markProcessed (st : St) (t : Txn) :
    photoAttemptUrls (markProcessed st t).2 = [] := by
  cases hb : t.block_time <;>
    simp [markProcessed, hb, photoAttemptUrls, photoUrlOfEvent]

theorem ethosCalls_markProcessed (st : St) (t : Txn) :
    ethosCalls (markProcessed st t).2 = [] := by
  cases hb : t.block_time <;>
    simp [markProcessed, hb, ethosCalls, ethosCallOfEvent]

theorem deliveryAttempts_markProcessed (st : St) (t : Txn) :
    deliveryAttempts (markProcessed st t).2 = [] := by
  cases hb : t.block_time <;>
    simp [markProcessed, hb, deliveryAttempts, isDeliveryAttempt]

/-! ### Deliveries of one `processTxn` call -/

theorem deliveryCaptions_processTxn_nil {env : Env} {st : St} {t : Txn}
    {ti : TokenInfo} (h1 : t.id ∉ st.processed) (h2 : t.tokenInfo = some ti) :
    deliveryCaptions (processTxn env st [] t).2.2 = [enrichedCaption env ti] ∧
    (processTxn env st [] t).2.1 = [] := by
  rw [processTxn_some h1 h2]
  constructor
  · rw [deliveryCaptions_append, deliveryCaptions_append, deliveryCaptions_append,
      deliveryCaptions_append, deliveryCaptions_append,
      deliveryCaptions_fetchMetadata, deliveryCaptions_markProcessed,
      sendWithImage_nil]
    rcases hm : (fetchMetadata env ti.uri).1 with _ | m <;>
      by_cases hu : (creatorOf env ti).username = "" <;>
      by_cases hi : imageOf env ti = "" <;>
      simp [hm, hu, hi, deliveryCaptions, captionOfEvent]
  · rw [sendWithImage_nil]

/-! ### Claim theorems -/

/-- C1: processing a feed item whose identifier is already in the processed
set performs no enrichment lookup, no delivery and no store mutation (the
call returns the state, the response stream and an empty trace unchanged);
consequently, when a second consecutive poll cycle receives the same feed
output, it produces zero delivery attempts. -/
theorem c1_seen_skip_and_second_cycle_silent (env env2 : Env) (st : St)
    (resps : List TgResp) (txn : Txn) (hfeed : env2.feed = env.feed) :
    (txn.id ∈ st.processed → processTxn env st resps txn = (st, resps, [])) ∧
    deliveryAttempts
      (poll env2 (poll env st resps).1 (poll env st resps).2.1).2.2 = [] := by
  refine ⟨fun h => processTxn_skip h, ?_⟩
  have hall : ∀ t ∈ (jsSliceReverse (fetchTxns env2).1).1,
      t.id ∈ (poll env st resps).1.processed := by
    intro t ht
    rw [fetchTxns_congr hfeed] at ht
    exact processList_mem_processed ht
  show deliveryAttempts ((fetchTxns env2).2 ++
      (processList env2 (poll env st resps).1 (poll env st resps).2.1
        (jsSliceReverse (fetchTxns env2).1).1).2.2) = []
  rw [processList_all_seen hall, deliveryAttempts_append, deliveryAttempts_fetchTxns]
  rfl

/-- Witness for C1 at concrete inputs: a transaction whose id is already in
the state is skipped outright, and a second cycle on the same feed makes no
delivery attempt. -/
theorem c1_witness :
    (processTxn cEnv3 stA [] tA = (stA, [], []) ∧
     deliveryAttempts (poll cEnv3 (poll cEnv3 st0 []).1 (poll cEnv3 st0 []).2.1).2.2 = []) :=
  ⟨(c1_seen_skip_and_second_cycle_silent cEnv3 cEnv3 stA [] tA rfl).1 (by decide),
   (c1_seen_skip_and_second_cycle_silent cEnv3 cEnv3 st0 [] tA rfl).2⟩

/-- C4: the fetch step is a total function of the oracle (it never throws to
`poll`); it returns the empty sequence in every failure case: thrown error
with a 5xx status (after a 1000 ms cooldown sleep), thrown error with a
non-5xx or missing status (no sleep), a missing response body, and a body
whose `transactions` field is not an array. -/
theorem c4_fetch_never_throws (env : Env) (s : Int) (d : FeedData) :
    (env.feed = .err (some s) → 500 ≤ s →
       fetchTxns env = ([], [.fetchFeed, .logFetchServerErr, .sleepEv 1000])) ∧
    (env.feed = .err (some s) → s < 500 →
       fetchTxns env = ([], [.fetchFeed, .logFetchErr])) ∧
    (env.feed = .err none → fetchTxns env = ([], [.fetchFeed, .logFetchErr])) ∧
    (env.feed = .ok none → fetchTxns env = ([], [.fetchFeed, .logFetchInvalid])) ∧
    (env.feed = .ok (some d) → d.transactions = none →
       fetchTxns env = ([], [.fetchFeed, .logFetchInvalid])) := by
  refine ⟨?_, ?_, ?_, ?_, ?_⟩
  · intro h h5
    simp [fetchTxns, h, h5]
  · intro h h5
    simp [fetchTxns, h, not_le.mpr h5]
  · intro h
    simp [fetchTxns, h]
  · intro h
    simp [fetchTxns, h]
  · intro h ht
    simp [fetchTxns, h, ht]

/-- Witness for C4: a feed request that throws with status 502 yields the
empty list after the cooldown sleep. -/
theorem c4_witness :
    cEnv502.feed = .err (some 502) ∧ (500 : Int) ≤ 502 ∧
    fetchTxns cEnv502 = ([], [.fetchFeed, .logFetchServerErr, .sleepEv 1000]) :=
  ⟨rfl, by norm_num,
   (c4_fetch_never_throws cEnv502 502 { transactions := none }).1 rfl (by norm_num)⟩

/-- C8: `markProcessed` synchronously rewrites the durable file with the full
updated set before returning (the first trace event is the file write), the
marked identifier is in that set, and after a restart that rebuilds the
in-memory set from the persisted file, `hasSeen` answers true for it without
any further event. -/
theorem c8_durable_dedup_roundtrip (st : St) (txn : Txn) :
    (markProcessed st txn).1.file = .good (markProcessed st txn).1.processed ∧
    txn.id ∈ (markProcessed st txn).1.processed ∧
    (markProcessed st txn).2.head? =
      some (.writeProcessed (markProcessed st txn).1.processed) ∧
    hasSeen (startState (markProcessed st txn).1.file) txn.id = true := by
  refine ⟨rfl, mem_setAdd_self, ?_, ?_⟩
  · rw [markProcessed_head]
    rfl
  · have h : txn.id ∈ loadProcessed (FileState.good (setAdd st.processed txn.id)) :=
      mem_foldl_setAdd_of_mem mem_setAdd_self
    simpa [hasSeen, startState] using h

/-- C2, counterexample to the claim as stated: with every Telegram response
failing with a non-rate-limit error, a transaction that carries token info is
neither successfully delivered nor judged non-notifiable, yet its identifier
is still added to the dedup set (the delivery attempt completed by dropping
the message). -/
theorem c2_cex :
    cTxn2.id ∈ (processTxn baseEnv st0 [TgResp.failure (some 400) none] cTxn2).1.processed ∧
    successCount (processTxn baseEnv st0 [TgResp.failure (some 400) none] cTxn2).2.2 = 0 ∧
    cTxn2.tokenInfo ≠ none := by
  decide

/-- C2 (amended): for an unseen item, the identifier is added to the dedup
set exactly when processing runs to completion — either the item is judged
non-notifiable (no token info: the call is exactly the mark, with no
enrichment or delivery event), or a delivery attempt is completed (possibly
dropped after logging) before the mark; no store write precedes the delivery
attempt, so partially processed items are never marked seen. -/
theorem c2_mark_iff_fully_processed (env : Env) (st : St) (resps : List TgResp)
    (txn : Txn) (h1 : txn.id ∉ st.processed) :
    txn.id ∈ (processTxn env st resps txn).1.processed ∧
    (txn.tokenInfo = none →
       processTxn env st resps txn =
         ((markProcessed st txn).1, resps, (markProcessed st txn).2)) ∧
    (∀ ti, txn.tokenInfo = some ti →
       ∃ pre, (processTxn env st resps txn).2.2 = pre ++ (markProcessed st txn).2 ∧
         storeWrites pre = [] ∧ deliveryAttempts pre ≠ []) := by
  refine ⟨processTxn_mem_processed env st resps txn, fun h2 => processTxn_none h1 h2, ?_⟩
  intro ti h2
  rw [processTxn_some h1 h2]
  refine ⟨_, rfl, ?_, ?_⟩
  · rw [storeWrites_append, storeWrites_append, storeWrites_append, storeWrites_append,
      storeWrites_fetchMetadata, storeWrites_sendWithImage]
    rcases hm : (fetchMetadata env ti.uri).1 with _ | m <;>
      by_cases hu : (creatorOf env ti).username = "" <;>
      simp [hm, hu, storeWrites, isStoreWrite]
  · rw [deliveryAttempts_append, deliveryAttempts_append, deliveryAttempts_append,
      deliveryAttempts_append, deliveryAttempts_fetchMetadata]
    intro hcontra
    exact deliveryAttempts_sendWithImage_ne_nil _ _ _ (List.append_eq_nil.mp hcontra).2

/-- Witness for C2 (amended) at a concrete unseen transaction. -/
theorem c2_witness :
    cTxn2.id ∉ st0.processed ∧
    (cTxn2.id ∈ (processTxn baseEnv st0 [] cTxn2).1.processed ∧
     (cTxn2.tokenInfo = none →
        processTxn baseEnv st0 [] cTxn2 =
          ((markProcessed st0 cTxn2).1, [], (markProcessed st0 cTxn2).2)) ∧
     (∀ ti, cTxn2.tokenInfo = some ti →
        ∃ pre, (processTxn baseEnv st0 [] cTxn2).2.2 = pre ++ (markProcessed st0 cTxn2).2 ∧
          storeWrites pre = [] ∧ deliveryAttempts pre ≠ [])) :=
  ⟨by decide, c2_mark_iff_fully_processed baseEnv st0 [] cTxn2 (by decide)⟩

/-- C6, counterexample to the claim as stated: a rate-limit response that
carries the server-given `retry_after` duration 0 is not retried — the
number 0 is falsy in JS, so the guard fails: there is no sleep, the single
attempt is not re-entered, and the error is logged as a send failure. -/
theorem c6_cex :
    sendMessage "m" [TgResp.failure (some 429) (some 0)] =
      ([Event.attemptText "m" (.failure (some 429) (some 0)), Event.logSendError], []) ∧
    sleeps (sendMessage "m" [TgResp.failure (some 429) (some 0)]).1 = [] ∧
    deliveryAttempts (sendMessage "m" [TgResp.failure (some 429) (some 0)]).1 =
      [Event.attemptText "m" (.failure (some 429) (some 0))] := by
  decide

/-- C6 (amended): on a rate-limit response (error code 429) carrying a
positive server-given `retry_after`, the notifier sleeps
`(retry_after + 1) * 1000` ms and re-attempts the same operation — a text
send stays a text send and a photo send stays a photo send with the same
arguments; and when the retried attempt succeeds, no failure is logged. -/
theorem c6_rate_limit_retry (html photoUrl caption : String) (ra : Nat)
    (rest : List TgResp) (hra : ra ≠ 0) (hp : photoUrl ≠ "") :
    (sendMessage html (.failure (some 429) (some ra) :: rest) =
       (Event.attemptText html (.failure (some 429) (some ra)) ::
          .logRateLimitText :: .sleepEv ((ra + 1) * 1000) :: (sendMessage html rest).1,
        (sendMessage html rest).2)) ∧
    (sendWithImage photoUrl caption (.failure (some 429) (some ra) :: rest) =
       (Event.attemptPhoto photoUrl caption (.failure (some 429) (some ra)) ::
          .logRateLimitPhoto :: .sleepEv ((ra + 1) * 1000) ::
          (sendWithImage photoUrl caption rest).1,
        (sendWithImage photoUrl caption rest).2)) ∧
    (rest.head?.getD .success = .success →
       failureLogs (sendMessage html (.failure (some 429) (some ra) :: rest)).1 = [] ∧
       failureLogs (sendWithImage photoUrl caption
         (.failure (some 429) (some ra) :: rest)).1 = []) := by
  have hc : jsRetryCond (some 429) (some ra) = true := by
    simp [jsRetryCond]
    exact hra
  refine ⟨by simp [sendMessage, hc], by simp [sendWithImage, hp, hc], ?_⟩
  intro hhead
  cases rest with
  | nil =>
    constructor <;>
      simp [sendMessage, sendWithImage, hc, hp, failureLogs, isFailureLog]
  | cons r rest' =>
    cases r with
    | success =>
      constructor <;>
        simp [sendMessage, sendWithImage, hc, hp, failureLogs, isFailureLog]
    | failure ec' ra' => simp [Option.getD] at hhead

/-- Witness for C6 (amended) at `retry_after = 2` with a successful retry. -/
theorem c6_witness :
    (2 : Nat) ≠ 0 ∧ "http://i" ≠ "" ∧
    ((sendMessage "h" [.failure (some 429) (some 2), .success] =
       (Event.attemptText "h" (.failure (some 429) (some 2)) ::
          .logRateLimitText :: .sleepEv ((2 + 1) * 1000) ::
          (sendMessage "h" [.success]).1,
        (sendMessage "h" [.success]).2)) ∧
     (sendWithImage "http://i" "c" [.failure (some 429) (some 2), .success] =
       (Event.attemptPhoto "http://i" "c" (.failure (some 429) (some 2)) ::
          .logRateLimitPhoto :: .sleepEv ((2 + 1) * 1000) ::
          (sendWithImage "http://i" "c" [.success]).1,
        (sendWithImage "http://i" "c" [.success]).2)) ∧
     (([TgResp.success] : List TgResp).head?.getD .success = .success →
        failureLogs (sendMessage "h" [.failure (some 429) (some 2), .success]).1 = [] ∧
        failureLogs (sendWithImage "http://i" "c"
          [.failure (some 429) (some 2), .success]).1 = [])) :=
  ⟨by decide, by decide,
   c6_rate_limit_retry "h" "http://i" "c" 2 [.success] (by decide) (by decide)⟩

/-- C7, counterexample to the claim as stated: when the image attempt fails
with a non-rate-limit error and the subsequent text-only attempt also fails
with a non-rate-limit error, the caption is successfully delivered zero
times, not exactly once — the fallback message is dropped after logging. -/
theorem c7_cex :
    successTextCount (sendWithImage "http://img" "cap"
      [TgResp.failure (some 400) none, TgResp.failure (some 400) none]).1 = 0 ∧
    (sendWithImage "http://img" "cap"
      [TgResp.failure (some 400) none, TgResp.failure (some 400) none]).1 =
      [Event.attemptPhoto "http://img" "cap" (.failure (some 400) none),
       Event.logPhotoFallback,
       Event.attemptText "cap" (.failure (some 400) none),
       Event.logSendError] := by
  decide

/-- C7 (amended): when the image attempt fails with a non-rate-limit error,
the notifier hands the same caption to the text-only path exactly once; that
path issues only text attempts, all carrying the same caption, retries only
on rate limiting, and succeeds at most once, so the caption is delivered as
text at most once (exactly once when some text attempt succeeds); with an
empty `imageUrl` the photo endpoint is never attempted and delivery goes
directly to the text-only path; and every `sendWithImage` call returns to
its caller exactly once (it is a total function of the response stream). -/
theorem c7_photo_fallback_to_text (photoUrl caption : String) (ec : Option Int)
    (ra : Option Nat) (rest resps : List TgResp)
    (hp : photoUrl ≠ "") (hnr : jsRetryCond ec ra = false) :
    (sendWithImage photoUrl caption (.failure ec ra :: rest) =
       (Event.attemptPhoto photoUrl caption (.failure ec ra) ::
          .logPhotoFallback :: (sendMessage caption rest).1,
        (sendMessage caption rest).2)) ∧
    photoAttemptUrls (sendMessage caption rest).1 = [] ∧
    (∃ n, textAttempts (sendMessage caption rest).1 = List.replicate (n + 1) caption) ∧
    successTextCount (sendMessage caption rest).1 ≤ 1 ∧
    sendWithImage "" caption resps = sendMessage caption resps ∧
    photoAttemptUrls (sendMessage caption resps).1 = [] :=
  ⟨by simp [sendWithImage, hp, hnr],
   photoAttemptUrls_sendMessage caption rest,
   textAttempts_sendMessage caption rest,
   successTextCount_sendMessage_le_one caption rest,
   sendWithImage_empty caption resps,
   photoAttemptUrls_sendMessage caption resps⟩

/-- Witness for C7 (amended): photo fails with a 400, fallback text succeeds. -/
theorem c7_witness :
    "http://i" ≠ "" ∧ jsRetryCond (some 400) none = false ∧
    ((sendWithImage "http://i" "c" [.failure (some 400) none, .success] =
       (Event.attemptPhoto "http://i" "c" (.failure (some 400) none) ::
          .logPhotoFallback :: (sendMessage "c" [.success]).1,
        (sendMessage "c" [.success]).2)) ∧
     photoAttemptUrls (sendMessage "c" [.success]).1 = [] ∧
     (∃ n, textAttempts (sendMessage "c" [.success]).1 = List.replicate (n + 1) "c") ∧
     successTextCount (sendMessage "c" [.success]).1 ≤ 1 ∧
     sendWithImage "" "c" [.success] = sendMessage "c" [.success] ∧
     photoAttemptUrls (sendMessage "c" [.success]).1 = []) :=
  ⟨by decide, by decide,
   c7_photo_fallback_to_text "http://i" "c" (some 400) none [.success] [.success]
     (by decide) (by decide)⟩

/-- C3: when the feed returns `[C, B, A]` (newest first) with three distinct
unseen token-bearing transactions, the poll cycle delivers in the order
A, B, C — the captions of the delivery attempts appear oldest first — and
the reversal operates on a copy (`slice()`), leaving the fetched sequence
unchanged. -/
theorem c3_reverse_order_delivery (env : Env) (st : St) (a b c : Txn)
    (tia tib tic : TokenInfo)
    (hfeed : env.feed = .ok (some { transactions := some [c, b, a] }))
    (ha : a.tokenInfo = some tia) (hb : b.tokenInfo = some tib)
    (hc : c.tokenInfo = some tic)
    (h1 : a.id ∉ st.processed) (h2 : b.id ∉ st.processed)
    (h3 : c.id ∉ st.processed)
    (hba : b.id ≠ a.id) (hca : c.id ≠ a.id) (hcb : c.id ≠ b.id) :
    deliveryCaptions (poll env st []).2.2 =
      [enrichedCaption env tia, enrichedCaption env tib, enrichedCaption env tic] ∧
    (jsSliceReverse [c, b, a]).2 = [c, b, a] := by
  refine ⟨?_, rfl⟩
  have hf : fetchTxns env = ([c, b, a], [Event.fetchFeed]) := by
    simp [fetchTxns, hfeed]
  have hA := @deliveryCaptions_processTxn_nil env st a tia h1 ha
  have hst1 : (processTxn env st [] a).1.processed = setAdd st.processed a.id := by
    rw [processTxn_fst, if_neg h1]
    rfl
  have h2' : b.id ∉ (processTxn env st [] a).1.processed := by
    rw [hst1]
    intro hmem
    rcases mem_setAdd.mp hmem with h | h
    · exact h2 h
    · exact hba h
  have hB := @deliveryCaptions_processTxn_nil env (processTxn env st [] a).1 b tib h2' hb
  have hst2 : (processTxn env (processTxn env st [] a).1 [] b).1.processed =
      setAdd (setAdd st.processed a.id) b.id := by
    rw [processTxn_fst, if_neg h2', markProcessed_fst, hst1]
  have h3' : c.id ∉ (processTxn env (processTxn env st [] a).1 [] b).1.processed := by
    rw [hst2]
    intro hmem
    rcases mem_setAdd.mp hmem with hmem | h
    · rcases mem_setAdd.mp hmem with h | h
      · exact h3 h
      · exact hca h
    · exact hcb h
  have hC := @deliveryCaptions_processTxn_nil env
    (processTxn env (processTxn env st [] a).1 [] b).1 c tic h3' hc
  show deliveryCaptions ((fetchTxns env).2 ++
      (processList env st [] (jsSliceReverse (fetchTxns env).1).1).2.2) = _
  rw [hf]
  show deliveryCaptions ([Event.fetchFeed] ++
      (processList env st [] [a, b, c]).2.2) = _
  simp only [processList]
  rw [hA.2, hB.2]
  rw [deliveryCaptions_append, deliveryCaptions_append, deliveryCaptions_append,
    deliveryCaptions_append, hA.1, hB.1, hC.1]
  rfl

/-- Witness for C3 at a concrete feed `[tC, tB, tA]` under an oracle where
every Telegram send succeeds. -/
theorem c3_witness :
    tA.id ∉ st0.processed ∧ tB.id ≠ tA.id ∧
    (deliveryCaptions (poll cEnv3 st0 []).2.2 =
      [enrichedCaption cEnv3 { symbol := some "AAA", address := some "addrA", uri := "uriA" },
       enrichedCaption cEnv3 { symbol := some "BBB", address := some "addrB", uri := "uriB" },
       enrichedCaption cEnv3 { symbol := some "CCC", address := some "addrC", uri := "uriC" }] ∧
     (jsSliceReverse [tC, tB, tA]).2 = [tC, tB, tA]) :=
  ⟨by decide, by decide,
   c3_reverse_order_delivery cEnv3 st0 tA tB tC
     { symbol := some "AAA", address := some "addrA", uri := "uriA" }
     { symbol := some "BBB", address := some "addrB", uri := "uriB" }
     { symbol := some "CCC", address := some "addrC", uri := "uriC" }
     rfl rfl rfl rfl (by decide) (by decide) (by decide)
     (by decide) (by decide) (by decide)⟩

/-- C5: enrichment never fails.  Identity and reputation lookup failures are
replaced by their documented defaults; metadata resolution tries the fixed
gateway list in order and returns the first success; when all gateways fail
it falls back to the raw URI; and when that also fails, the item proceeds
with empty metadata (hence an empty image), the identity lookup still runs,
the reputation lookup runs exactly when a non-empty handle was resolved, and
the item is still processed to completion. -/
theorem c5_enrichment_never_fails (env : Env) (st : St) (resps : List TgResp)
    (txn : Txn) (ti : TokenInfo) (p addr u : String)
    (h1 : txn.id ∉ st.processed) (h2 : txn.tokenInfo = some ti)
    (hp : env.urlPathname ti.uri = some p) :
    (env.creatorAt addr = .err →
       (fetchCreatorInfo env addr).1 =
         { username := "", followers := 0, smartFollowers := 0 }) ∧
    (env.ethosAt u = .err → (fetchEthos env u).1 = 0) ∧
    (∀ m, env.metaAt (gw1 ++ p) = .ok m →
       fetchMetadata env ti.uri = (some m, [.getMeta (gw1 ++ p)])) ∧
    (∀ m, env.metaAt (gw1 ++ p) = .err → env.metaAt (gw2 ++ p) = .ok m →
       fetchMetadata env ti.uri =
         (some m, [.getMeta (gw1 ++ p), .getMeta (gw2 ++ p)])) ∧
    (∀ m, env.metaAt (gw1 ++ p) = .err → env.metaAt (gw2 ++ p) = .err →
       env.metaAt (gw3 ++ p) = .ok m →
       fetchMetadata env ti.uri =
         (some m, [.getMeta (gw1 ++ p), .getMeta (gw2 ++ p), .getMeta (gw3 ++ p)])) ∧
    (∀ m, env.metaAt (gw1 ++ p) = .err → env.metaAt (gw2 ++ p) = .err →
       env.metaAt (gw3 ++ p) = .err → env.metaAt (gw4 ++ p) = .ok m →
       fetchMetadata env ti.uri =
         (some m, [.getMeta (gw1 ++ p), .getMeta (gw2 ++ p), .getMeta (gw3 ++ p),
                   .getMeta (gw4 ++ p)])) ∧
    (∀ m, (∀ gw ∈ IPFS_GATEWAYS, env.metaAt (gw ++ p) = .err) →
       env.metaAt ti.uri = .ok m →
       fetchMetadata env ti.uri =
         (some m, [.getMeta (gw1 ++ p), .getMeta (gw2 ++ p), .getMeta (gw3 ++ p),
                   .getMeta (gw4 ++ p), .getMeta ti.uri])) ∧
    ((∀ gw ∈ IPFS_GATEWAYS, env.metaAt (gw ++ p) = .err) →
       env.metaAt ti.uri = .err →
       fetchMetadata env ti.uri =
         (none, [.getMeta (gw1 ++ p), .getMeta (gw2 ++ p), .getMeta (gw3 ++ p),
                 .getMeta (gw4 ++ p), .getMeta ti.uri]) ∧
       metaOf env ti = {} ∧
       Event.getCreator (jsOr ti.address) ∈ (processTxn env st resps txn).2.2 ∧
       photoAttemptUrls (processTxn env st resps txn).2.2 = [] ∧
       ethosCalls (processTxn env st resps txn).2.2 =
         (if (creatorOf env ti).username = "" then []
          else [(creatorOf env ti).username]) ∧
       txn.id ∈ (processTxn env st resps txn).1.processed) := by
  refine ⟨?_, ?_, ?_, ?_, ?_, ?_, ?_, ?_⟩
  · intro h
    simp [fetchCreatorInfo, h]
  · intro h
    simp [fetchEthos, h]
  · intro m hm1
    simp [fetchMetadata, hp, tryGws, IPFS_GATEWAYS, hm1]
  · intro m hm1 hm2
    simp [fetchMetadata, hp, tryGws, IPFS_GATEWAYS, hm1, hm2]
  · intro m hm1 hm2 hm3
    simp [fetchMetadata, hp, tryGws, IPFS_GATEWAYS, hm1, hm2, hm3]
  · intro m hm1 hm2 hm3 hm4
    simp [fetchMetadata, hp, tryGws, IPFS_GATEWAYS, hm1, hm2, hm3, hm4]
  · intro m hall hraw
    have e1 := hall gw1 (by simp [IPFS_GATEWAYS])
    have e2 := hall gw2 (by simp [IPFS_GATEWAYS])
    have e3 := hall gw3 (by simp [IPFS_GATEWAYS])
    have e4 := hall gw4 (by simp [IPFS_GATEWAYS])
    simp [fetchMetadata, hp, tryGws, IPFS_GATEWAYS, e1, e2, e3, e4, hraw]
  · intro hall hraw
    have e1 := hall gw1 (by simp [IPFS_GATEWAYS])
    have e2 := hall gw2 (by simp [IPFS_GATEWAYS])
    have e3 := hall gw3 (by simp [IPFS_GATEWAYS])
    have e4 := hall gw4 (by simp [IPFS_GATEWAYS])
    have hfm : fetchMetadata env ti.uri =
        (none, [.getMeta (gw1 ++ p), .getMeta (gw2 ++ p), .getMeta (gw3 ++ p),
                .getMeta (gw4 ++ p), .getMeta ti.uri]) := by
      simp [fetchMetadata, hp, tryGws, IPFS_GATEWAYS, e1, e2, e3, e4, hraw]
    have hmeta : metaOf env ti = {} := by
      rw [metaOf, hfm]
      rfl
    have himg : imageOf env ti = "" := by
      rw [imageOf, hmeta]
      rfl
    refine ⟨hfm, hmeta, ?_, ?_, ?_, processTxn_mem_processed env st resps txn⟩
    · rw [processTxn_some h1 h2]
      simp
    · rw [processTxn_some h1 h2, himg, sendWithImage_empty,
        photoAttemptUrls_append, photoAttemptUrls_append, photoAttemptUrls_append,
        photoAttemptUrls_append, photoAttemptUrls_append,
        photoAttemptUrls_fetchMetadata, photoAttemptUrls_markProcessed,
        photoAttemptUrls_sendMessage, hfm]
      by_cases hu : (creatorOf env ti).username = "" <;>
        simp [hu, photoAttemptUrls, photoUrlOfEvent]
    · rw [processTxn_some h1 h2, ethosCalls_append, ethosCalls_append,
        ethosCalls_append, ethosCalls_append, ethosCalls_append,
        ethosCalls_fetchMetadata, ethosCalls_markProcessed,
        ethosCalls_sendWithImage, hfm]
      by_cases hu : (creatorOf env ti).username = "" <;>
        simp [hu, ethosCalls, ethosCallOfEvent]

/-- Witness for C5 at a concrete oracle where every gateway, the raw URI,
the creator lookup and the ethos lookup all fail. -/
theorem c5_witness :
    cTxn2.id ∉ st0.processed ∧
    baseEnv.urlPathname "u2" = some "/p" ∧
    (fetchMetadata baseEnv "u2" =
       (none, [.getMeta (gw1 ++ "/p"), .getMeta (gw2 ++ "/p"), .getMeta (gw3 ++ "/p"),
               .getMeta (gw4 ++ "/p"), .getMeta "u2"]) ∧
     metaOf baseEnv { symbol := some "S2", address := some "a2", uri := "u2" } = {} ∧
     Event.getCreator "a2" ∈ (processTxn baseEnv st0 [] cTxn2).2.2 ∧
     photoAttemptUrls (processTxn baseEnv st0 [] cTxn2).2.2 = [] ∧
     ethosCalls (processTxn baseEnv st0 [] cTxn2).2.2 = [] ∧
     cTxn2.id ∈ (processTxn baseEnv st0 [] cTxn2).1.processed) :=
  ⟨by decide, rfl,
   (c5_enrichment_never_fails baseEnv st0 [] cTxn2
     { symbol := some "S2", address := some "a2", uri := "u2" } "/p" "x" "y"
     (by decide) rfl rfl).2.2.2.2.2.2.2 (fun gw _ => rfl) rfl⟩

/-- C9, counterexample to the claim as stated: the code accepts any image
reference beginning with the four characters `http`; the reference
`"httpfoo"` is not an absolute, directly-fetchable URL under the spec's
criterion, yet the notification still carries it to the photo endpoint. -/
theorem c9_cex :
    specDirectlyFetchableUrl "httpfoo" = false ∧
    photoAttemptUrls (processTxn cEnv9 st0 [] cTxn2).2.2 = ["httpfoo"] := by
  decide

/-- C9 (amended): the notification carries an image exactly when the
metadata image reference begins with the literal prefix `"http"` — a prefix
test, not URL validation: every photo attempt in the trace carries that
reference unchanged, a reference failing the prefix test is treated as
absent (no photo attempt at all), and with an all-success response stream
the photo attempt is made exactly once when the prefix test passes. -/
theorem c9_image_prefix_test (env : Env) (st : St) (resps : List TgResp)
    (txn : Txn) (ti : TokenInfo)
    (h1 : txn.id ∉ st.processed) (h2 : txn.tokenInfo = some ti) :
    (∀ u ∈ photoAttemptUrls (processTxn env st resps txn).2.2,
       u = jsOr (metaOf env ti).image ∧ jsStartsWith u "http" = true) ∧
    (jsStartsWith (jsOr (metaOf env ti).image) "http" = false →
       photoAttemptUrls (processTxn env st resps txn).2.2 = []) ∧
    photoAttemptUrls (processTxn env st [] txn).2.2 =
      (if jsStartsWith (jsOr (metaOf env ti).image) "http" = true
       then [jsOr (metaOf env ti).image] else []) := by
  have key : ∀ rs, photoAttemptUrls (processTxn env st rs txn).2.2 =
      photoAttemptUrls (sendWithImage (imageOf env ti) (enrichedCaption env ti) rs).1 := by
    intro rs
    rw [processTxn_some h1 h2, photoAttemptUrls_append, photoAttemptUrls_append,
      photoAttemptUrls_append, photoAttemptUrls_append, photoAttemptUrls_append,
      photoAttemptUrls_fetchMetadata, photoAttemptUrls_markProcessed]
    rcases hm : (fetchMetadata env ti.uri).1 with _ | m <;>
      by_cases hu : (creatorOf env ti).username = "" <;>
      simp [hm, hu, photoAttemptUrls, photoUrlOfEvent]
  by_cases hsw : jsStartsWith (jsOr (metaOf env ti).image) "http" = true
  · have himg : imageOf env ti = jsOr (metaOf env ti).image := by
      rw [imageOf, if_pos hsw]
    have hne : imageOf env ti ≠ "" := by
      rw [himg]
      intro h0
      rw [h0] at hsw
      exact absurd hsw (by decide)
    refine ⟨?_, ?_, ?_⟩
    · intro u hu
      rw [key resps] at hu
      obtain ⟨n, hrep⟩ := photoAttemptUrls_sendWithImage _ _ resps hne
      rw [hrep] at hu
      have hui := List.eq_of_mem_replicate hu
      subst hui
      refine ⟨himg, ?_⟩
      rw [himg]
      exact hsw
    · intro hf
      simp [hsw] at hf
    · rw [key [], sendWithImage_nil, if_neg hne, if_pos hsw, himg]
      rfl
  · have himg : imageOf env ti = "" := by
      rw [imageOf, if_neg hsw]
    have hzero : ∀ rs, photoAttemptUrls (processTxn env st rs txn).2.2 = [] := by
      intro rs
      rw [key rs, himg, sendWithImage_empty, photoAttemptUrls_sendMessage]
    refine ⟨?_, fun _ => hzero resps, ?_⟩
    · intro u hu
      rw [hzero resps] at hu
      cases hu
    · rw [hzero [], if_neg hsw]

/-- Witness for C9 (amended) at an oracle resolving the image reference
`"httpfoo"`, which passes the prefix test. -/
theorem c9_witness :
    cTxn2.id ∉ st0.processed ∧
    cTxn2.tokenInfo = some { symbol := some "S2", address := some "a2", uri := "u2" } ∧
    ((∀ u ∈ photoAttemptUrls (processTxn cEnv9 st0 [] cTxn2).2.2,
        u = jsOr (metaOf cEnv9 { symbol := some "S2", address := some "a2", uri := "u2" }).image ∧
        jsStartsWith u "http" = true) ∧
     (jsStartsWith (jsOr (metaOf cEnv9 { symbol := some "S2", address := some "a2", uri := "u2" }).image) "http" = false →
        photoAttemptUrls (processTxn cEnv9 st0 [] cTxn2).2.2 = []) ∧
     photoAttemptUrls (processTxn cEnv9 st0 [] cTxn2).2.2 =
       (if jsStartsWith (jsOr (metaOf cEnv9 { symbol := some "S2", address := some "a2", uri := "u2" }).image) "http" = true
        then [jsOr (metaOf cEnv9 { symbol := some "S2", address := some "a2", uri := "u2" }).image] else [])) :=
  ⟨by decide, rfl,
   c9_image_prefix_test cEnv9 st0 [] cTxn2
     { symbol := some "S2", address := some "a2", uri := "u2" } (by decide) rfl⟩

end PollTg
